import Mathlib

/-!
Verification development for the task-orchestration engine of the
personal-ai-orchestration repository.

The definitions below are a shallow embedding of the JavaScript source:

* JavaScript values are modelled by the inductive type JsVal
  (undefined, null, booleans, numbers, strings, arrays, objects).
* The Postgres store (services/orchestrator-svc/src/db.js) becomes an
  explicit state type Db carrying the tasks table, the task_events table,
  the current clock value and an event-id counter.  A SQL transaction
  that rolls back is modelled by returning the input state unchanged.
* applyTaskPatch / buildPatchQuery / insertTaskEvent / createTask mirror
  their JavaScript counterparts statement by statement.
* The shared auth module of packages/common (authenticateRequest,
  parseBasicCredentials, base64 decoding) and the websocket hub
  (setupWebsocket: handleUpgrade, buildAuthContext, broadcast,
  isOriginAllowed) are embedded as pure functions over request data.
* The handler registry (HandlerRegistry.build / register / resolve /
  getBySlug together with the env-configured dispatch handler
  constructors) is embedded over association lists; the executor
  closures (execute / dispatch) are reduced to presence flags, which is
  all the control flow of processTask inspects.
* processTask (services/orchestrator-svc/src/index.js) is embedded as a
  deterministic state-passing function.  The resolved handler and the
  outcome of the handler invocation (a returned value, or a thrown
  exception with its message) are parameters; the fire-and-forget
  broadcasts are collected in a list, and every applyTaskPatch attempt
  is recorded as a pair of the version it carried and whether it
  succeeded.
-/

/-- A JavaScript value: undefined, null, boolean, number, string, array
or object (an ordered field list with distinct keys). -/
inductive JsVal : Type where
  | undefined : JsVal
  | jnull : JsVal
  | bool (b : Bool) : JsVal
  | num (n : Int) : JsVal
  | str (s : String) : JsVal
  | arr (xs : List JsVal) : JsVal
  | obj (fs : List (String × JsVal)) : JsVal
  deriving Repr

/-- JavaScript truthiness (NaN is not modelled; numbers are integers). -/
def JsVal.truthy : JsVal → Bool
  | .undefined => false
  | .jnull => false
  | .bool b => b
  | .num n => n != 0
  | .str s => s != ""
  | .arr _ => true
  | .obj _ => true

/-- The JavaScript test (typeof v === 'object'): true for null, arrays
and objects. -/
def JsVal.typeofObject : JsVal → Bool
  | .jnull => true
  | .arr _ => true
  | .obj _ => true
  | _ => false

/-- The JavaScript test (typeof v === 'string'). -/
def JsVal.isString : JsVal → Bool
  | .str _ => true
  | _ => false

/-- The JavaScript strict comparison (v === undefined). -/
def JsVal.isUndefined : JsVal → Bool
  | .undefined => true
  | _ => false

/-- The JavaScript strict comparison against a string literal
(v === 'lit'). -/
def JsVal.eqStr : JsVal → String → Bool
  | .str s, t => s = t
  | _, _ => false

/-- Property read (v.k): undefined on missing fields and non-objects. -/
def getField (v : JsVal) (k : String) : JsVal :=
  match v with
  | .obj fs =>
    match fs.find? (fun kv => kv.1 = k) with
    | some kv => kv.2
    | none => .undefined
  | _ => .undefined

/-- Property assignment on a field list: overwrite the key in place when
present (keys are unique in lists built by this embedding), append
otherwise, as JavaScript object assignment does. -/
def setField (fs : List (String × JsVal)) (k : String) (v : JsVal) :
    List (String × JsVal) :=
  match fs with
  | [] => [(k, v)]
  | kv :: rest => if kv.1 = k then (k, v) :: rest else kv :: setField rest k v

/-- Object spread: fold the extra fields onto the base field list with
assignment semantics. -/
def objSpread (base extra : List (String × JsVal)) : List (String × JsVal) :=
  extra.foldl (fun acc kv => setField acc kv.1 kv.2) base

/-- The JavaScript expression (v || null). -/
def jsOrNull (v : JsVal) : JsVal :=
  if v.truthy then v else .jnull

/-- The JavaScript expression (s || null) on a nullable string column
value: empty strings collapse to null. -/
def strOrNull (s : Option String) : Option String :=
  match s with
  | some v => if v = "" then none else some v
  | none => none

/-- String.prototype.startsWith, over the character list (the String
library function does not reduce in the kernel). -/
def jsStartsWith (s pre : String) : Bool :=
  pre.data.isPrefixOf s.data

/-- String.prototype.toLowerCase, over the character list. -/
def jsToLower (s : String) : String :=
  String.mk (s.data.map Char.toLower)

/-- String.prototype.split with a single-character separator, over the
character list. -/
def splitChars (sep : Char) : List Char → List (List Char)
  | [] => [[]]
  | c :: rest =>
    let r := splitChars sep rest
    if c = sep then [] :: r
    else
      match r with
      | h :: t => (c :: h) :: t
      | [] => [[c]]

/-- String.prototype.split with a single-character separator. -/
def jsSplit (s : String) (sep : Char) : List String :=
  (splitChars sep s.data).map String.mk

/-- String.prototype.trim (space characters suffice for the env values
this system trims). -/
def jsTrim (s : String) : String :=
  String.mk (((s.data.dropWhile (fun c => c = ' ')).reverse.dropWhile
    (fun c => c = ' ')).reverse)

/-- Keyed assignment on an association list, the common model for
JavaScript object property assignment and Map.prototype.set: overwrite
the key in place when present (keys are unique in lists built by this
embedding), append otherwise. -/
def mapSet {α : Type} (m : List (String × α)) (k : String) (v : α) :
    List (String × α) :=
  match m with
  | [] => [(k, v)]
  | kv :: rest => if kv.1 = k then (k, v) :: rest else kv :: mapSet rest k v

/-- Keyed lookup on an association list. -/
def mapGet {α : Type} (m : List (String × α)) (k : String) : Option α :=
  match m.find? (fun kv => kv.1 = k) with
  | some kv => some kv.2
  | none => none

/-- Escaping for JSON.stringify on the characters that occur in this
system's data (quote and backslash). -/
def jsonEscape (s : String) : String :=
  s.data.foldl (fun acc c =>
    if c = '"' then acc ++ "\\\""
    else if c = '\\' then acc ++ "\\\\"
    else acc.push c) ""

mutual

/-- JSON.stringify: none models the undefined result on undefined input;
inside arrays undefined serializes as null, inside objects the field is
dropped. -/
def jsonStringify : JsVal → Option String
  | .undefined => none
  | .jnull => some "null"
  | .bool b => some (if b then "true" else "false")
  | .num n => some (toString n)
  | .str s => some ("\"" ++ jsonEscape s ++ "\"")
  | .arr xs => some ("[" ++ String.intercalate "," (jsonStringifyArr xs) ++ "]")
  | .obj fs => some ("\x7b" ++ String.intercalate "," (jsonStringifyObj fs) ++ "\x7d")

def jsonStringifyArr : List JsVal → List String
  | [] => []
  | x :: xs => ((jsonStringify x).getD "null") :: jsonStringifyArr xs

def jsonStringifyObj : List (String × JsVal) → List String
  | [] => []
  | (k, v) :: fs =>
    (match jsonStringify v with
     | some s => ["\"" ++ jsonEscape k ++ "\":" ++ s]
     | none => []) ++ jsonStringifyObj fs

end

/-- previewResult from orchestrator-svc index.js: the first 256
characters of the JSON serialization, or null when stringify yields
nothing. -/
def previewResult (result : JsVal) : JsVal :=
  match jsonStringify result with
  | none => .jnull
  | some s => if s = "" then .jnull else .str (String.mk (s.data.take 256))

/-! ## Persistence store (services/orchestrator-svc/src/db.js) -/

/-- A row of the tasks table. -/
structure TaskRow where
  id : String
  type : String
  status : String
  source : String
  payload : JsVal
  result : Option JsVal
  error : Option JsVal
  correlation_id : Option String
  trace_id : String
  version : Nat
  agent_id : Option String
  agent_slug : Option String
  agent_display_name : Option String
  agent_channel : Option String
  created_at : Nat
  updated_at : Nat
  deriving Repr

/-- A row of the task_events table. -/
structure EventRow where
  id : Nat
  task_id : String
  ts_utc : Nat
  actor : String
  kind : String
  data : Option JsVal
  correlation_id : Option String
  trace_id : Option String
  deriving Repr

/-- The database state: both tables, the clock (the value now() returns)
and the next generated event id. -/
structure Db where
  tasks : List TaskRow
  events : List EventRow
  now : Nat
  nextEventId : Nat
  deriving Repr

/-- The fields a task patch may carry.  A field is present exactly when
the JavaScript patch object has the own property (the endpoints only add
properties whose request value is not undefined).  correlationId can be
set to null, hence the nested option. -/
structure Patch where
  status : Option String := none
  result : Option JsVal := none
  error : Option JsVal := none
  payload : Option JsVal := none
  correlationId : Option (Option String) := none
  deriving Repr

/-- The event argument of applyTaskPatch.  correlationId and traceId
are carried to show that applyTaskPatch ignores them. -/
structure EventInput where
  actor : String
  kind : String
  data : Option JsVal := none
  correlationId : Option String := none
  traceId : Option String := none
  deriving Repr

/-- buildPatchQuery rejects a patch with no field to set (the thrown
generic Error); this predicate is that check. -/
def patchHasFields (p : Patch) : Bool :=
  p.status.isSome || p.result.isSome || p.error.isSome ||
    p.payload.isSome || p.correlationId.isSome

/-- The SET list of buildPatchQuery applied to one row: each present
field is written, version increments by one, updated_at becomes now(). -/
def applyRowPatch (now : Nat) (p : Patch) (row : TaskRow) : TaskRow :=
  { row with
    status := p.status.getD row.status
    result := match p.result with
      | some v => some v
      | none => row.result
    error := match p.error with
      | some v => some v
      | none => row.error
    payload := p.payload.getD row.payload
    correlation_id := match p.correlationId with
      | some v => v
      | none => row.correlation_id
    version := row.version + 1
    updated_at := now }

/-- insertTaskEvent: the inserted row takes the generated id and the
transaction clock; data is stored only when truthy, correlationId and
traceId collapse to null when falsy. -/
def insertTaskEvent (db : Db) (taskId actor kind : String) (data : Option JsVal)
    (correlationId : Option String) (traceId : Option String) : Db × EventRow :=
  let ev : EventRow :=
    { id := db.nextEventId
      task_id := taskId
      ts_utc := db.now
      actor := actor
      kind := kind
      data := match data with
        | some d => if d.truthy then some d else none
        | none => none
      correlation_id := strOrNull correlationId
      trace_id := strOrNull traceId }
  ({ db with events := db.events ++ [ev], nextEventId := db.nextEventId + 1 }, ev)

/-- The two failure modes of applyTaskPatch: the version-conflict error
and the generic error buildPatchQuery throws on an empty patch. -/
inductive PatchError where
  | conflict
  | noFields
  deriving Repr, DecidableEq

/-- applyTaskPatch: one transaction running the guarded UPDATE
(WHERE id AND version = ifVersion, SET fields plus version+1 plus
updated_at) and, when an event argument is supplied, the event insert
whose correlation and trace ids come from the freshly returned task row
and whose data falls back to null.  Zero updated rows roll back with a
ConflictError; the returned Db is the input state on every error. -/
def applyTaskPatch (db : Db) (id : String) (ifVersion : Nat) (patch : Patch)
    (event : Option EventInput) : Db × Except PatchError (TaskRow × Option EventRow) :=
  if ¬ patchHasFields patch then (db, .error .noFields)
  else
    match db.tasks.filter (fun r => r.id = id && r.version = ifVersion) with
    | [] => (db, .error .conflict)
    | row :: _ =>
      let updated := applyRowPatch db.now patch row
      let db1 := { db with
        tasks := db.tasks.map (fun r =>
          if r.id = id && r.version = ifVersion then applyRowPatch db.now patch r else r) }
      match event with
      | none => (db1, .ok (updated, none))
      | some ev =>
        let inserted := insertTaskEvent db1 id ev.actor ev.kind ev.data
          updated.correlation_id (some updated.trace_id)
        (inserted.1, .ok (updated, some inserted.2))

/-- The agent descriptor createTask receives. -/
structure AgentDescriptor where
  id : Option String := none
  slug : Option String := none
  displayName : Option String := none
  channel : Option String := none
  deriving Repr

/-- The JavaScript expression (agent?.field || null). -/
def descField (agent : Option AgentDescriptor) (f : AgentDescriptor → Option String) :
    Option String :=
  match agent with
  | some a => strOrNull (f a)
  | none => none

/-- Arguments of createTask. -/
structure CreateArgs where
  type : String
  payload : Option JsVal := none
  source : String
  correlationId : Option String := none
  traceId : String
  actor : String
  agent : Option AgentDescriptor := none
  deriving Repr

/-- createTask: one transaction inserting the task row (status queued,
version defaulting to 0, correlation id collapsed through the or-null
coercion), the created event, and the agent_assigned event when an agent
slug is present.  newId stands for the generated UUID. -/
def createTask (db : Db) (newId : String) (args : CreateArgs) :
    Db × TaskRow × EventRow × Option EventRow :=
  let agentId := descField args.agent (fun a => a.id)
  let agentSlug := descField args.agent (fun a => a.slug)
  let agentDisplayName := descField args.agent (fun a => a.displayName)
  let agentChannel := descField args.agent (fun a => a.channel)
  let task : TaskRow :=
    { id := newId
      type := args.type
      status := "queued"
      source := args.source
      payload := args.payload.getD (.obj [])
      result := none
      error := none
      correlation_id := strOrNull args.correlationId
      trace_id := args.traceId
      version := 0
      agent_id := agentId
      agent_slug := agentSlug
      agent_display_name := agentDisplayName
      agent_channel := agentChannel
      created_at := db.now
      updated_at := db.now }
  let db1 := { db with tasks := db.tasks ++ [task] }
  let createdData : JsVal := .obj
    [("type", .str args.type), ("source", .str args.source),
     ("correlationId", match strOrNull args.correlationId with
       | some c => .str c
       | none => .jnull)]
  let ins1 := insertTaskEvent db1 newId args.actor "created" (some createdData)
    (strOrNull args.correlationId) (some args.traceId)
  match agentSlug with
  | some slug =>
    let assignData : JsVal := .obj
      [("agentId", match agentId with | some v => .str v | none => .jnull),
       ("agentSlug", .str slug),
       ("agentDisplayName", match agentDisplayName with | some v => .str v | none => .jnull),
       ("agentChannel", match agentChannel with | some v => .str v | none => .jnull)]
    let ins2 := insertTaskEvent ins1.1 newId args.actor "agent_assigned" (some assignData)
      (strOrNull args.correlationId) (some args.traceId)
    (ins2.1, task, ins1.2, some ins2.2)
  | none => (ins1.1, task, ins1.2, none)

/-! ## Shared auth module (packages/common: authenticateRequest) -/

/-- One base64 alphabet position, none for characters Node's decoder
skips (including the padding sign). -/
def b64Index (c : Char) : Option Nat :=
  if 'A' ≤ c ∧ c ≤ 'Z' then some (c.toNat - 65)
  else if 'a' ≤ c ∧ c ≤ 'z' then some (c.toNat - 97 + 26)
  else if '0' ≤ c ∧ c ≤ '9' then some (c.toNat - 48 + 52)
  else if c = '+' then some 62
  else if c = '/' then some 63
  else none

/-- Base64 sextets to bytes: full groups of four give three bytes, a
trailing pair gives one byte, a trailing triple gives two. -/
def b64Bytes : List Nat → List Nat
  | a :: b :: c :: d :: rest =>
    (a * 4 + b / 16) :: ((b % 16) * 16 + c / 4) :: ((c % 4) * 64 + d) :: b64Bytes rest
  | [a, b] => [a * 4 + b / 16]
  | [a, b, c] => [a * 4 + b / 16, (b % 16) * 16 + c / 4]
  | _ => []

/-- Buffer.from(str, base64).toString: invalid characters are skipped;
the credentials this system carries are ASCII, so bytes map straight to
characters. -/
def decodeBase64 (s : String) : String :=
  String.mk ((b64Bytes (s.data.filterMap b64Index)).map Char.ofNat)

/-- parseBasicCredentials: split the header on spaces, require the
scheme to be basic with a nonempty value, base64-decode, split on the
first colon. -/
def parseBasicCredentials (header : Option String) : Option (String × String) :=
  match header with
  | none => none
  | some h =>
    match jsSplit h ' ' with
    | scheme :: value :: _ =>
      if scheme ≠ "" ∧ jsToLower scheme = "basic" ∧ value ≠ "" then
        match jsSplit (decodeBase64 value) ':' with
        | username :: rest =>
          if rest = [] then none
          else some (username, String.intercalate ":" rest)
        | [] => none
      else none
    | _ => none

/-- The environment the auth module reads (process.env values; absent
and empty are both falsy). -/
structure AuthEnv where
  internalKey : Option String := none
  basicUser : Option String := none
  basicPass : Option String := none

/-- Truthiness of an env value. -/
def envTruthy (v : Option String) : Bool :=
  match v with
  | some s => s != ""
  | none => false

/-- Case-insensitive-by-construction header lookup (Node lowercases
incoming header names; the embedding stores them lowercased). -/
def lookupHeader (headers : List (String × String)) (name : String) : Option String :=
  mapGet headers name

/-- authenticateRequest on a headers-only source (the shape the
websocket upgrade passes): the shared-secret header wins when the env
key is set and matches; otherwise Basic credentials from the
authorization header must equal the configured pair.  Returns the
resolved user on success.  (The query fallback inside authenticateRequest
is inert here because the source carries no url or query.) -/
def authenticateRequest (env : AuthEnv) (headers : List (String × String)) :
    Option String :=
  let internalOk :=
    envTruthy env.internalKey &&
      (match lookupHeader headers "x-internal-key" with
       | some hk => hk != "" && (some hk == env.internalKey)
       | none => false)
  if internalOk then some "internal"
  else if ¬ (envTruthy env.basicUser ∧ envTruthy env.basicPass) then none
  else
    match parseBasicCredentials (lookupHeader headers "authorization") with
    | some creds =>
      if some creds.1 = env.basicUser ∧ some creds.2 = env.basicPass then
        some creds.1
      else none
    | none => none

/-! ## Websocket hub (services/orchestrator-svc/src/websocket.js) -/

/-- An upgrade request, with the url split into pathname and decoded
query pairs. -/
structure UpgradeRequest where
  path : String
  query : List (String × String) := []
  headers : List (String × String) := []

/-- Query parameter lookup (URL.searchParams.get). -/
def lookupQuery (query : List (String × String)) (k : String) : Option String :=
  mapGet query k

/-- The raw request url the guard startsWith('/ws') inspects. -/
def urlOf (req : UpgradeRequest) : String :=
  req.path ++ (match req.query with
    | [] => ""
    | q => "?" ++ String.intercalate "&" (q.map (fun kv => kv.1 ++ "=" ++ kv.2)))

/-- A header value as JavaScript sees it for truthiness (absent or empty
is falsy). -/
def headerFalsy (v : Option String) : Bool :=
  match v with
  | some s => s == ""
  | none => true

/-- buildAuthContext: copy the request headers; a truthy auth query
parameter is turned into a Basic authorization header when none is set;
a truthy internalKey query parameter fills the shared-secret header the
same way; both parameters are then stripped from the url. -/
def buildAuthContext (req : UpgradeRequest) :
    List (String × String) × List (String × String) :=
  let authParam := lookupQuery req.query "auth"
  let internalKeyParam := lookupQuery req.query "internalKey"
  let headers1 :=
    match authParam with
    | some t =>
      if t ≠ "" ∧ headerFalsy (lookupHeader req.headers "authorization") then
        mapSet req.headers "authorization" ("Basic " ++ t)
      else req.headers
    | none => req.headers
  let headers2 :=
    match internalKeyParam with
    | some k =>
      if k ≠ "" ∧ headerFalsy (lookupHeader headers1 "x-internal-key") then
        mapSet headers1 "x-internal-key" k
      else headers1
    | none => headers1
  let sanitizedQuery :=
    if envTruthy authParam || envTruthy internalKeyParam then
      req.query.filter (fun kv => kv.1 ≠ "auth" ∧ kv.1 ≠ "internalKey")
    else req.query
  (headers2, sanitizedQuery)

/-- parseAllowedOrigins over the WS_ALLOWED_ORIGINS env value. -/
def parseAllowedOrigins (value : Option String) : List String :=
  match value with
  | none => []
  | some v => if v = "" then [] else ((jsSplit v ',').map jsTrim).filter (fun s => s ≠ "")

/-- isOriginAllowed: an empty allow-list admits everything; otherwise
the Origin header must be present and listed. -/
def isOriginAllowed (allowedOrigins : List String) (origin : Option String) : Bool :=
  if allowedOrigins.isEmpty then true
  else match origin with
    | none => false
    | some o => if o = "" then false else allowedOrigins.contains o

/-- The observable outcome of one upgrade attempt: the HTTP status
written to the raw socket (if any) and whether the socket was upgraded
and added to the connected-client set. -/
structure UpgradeOutcome where
  wroteStatus : Option Nat
  clientAdded : Bool
  deriving Repr, DecidableEq

/-- handleUpgrade of setupWebsocket: destroy urls outside /ws silently;
authenticate the request through the shared authenticateRequest after
the query-to-header translation; a failed check writes 401 and destroys
the socket before any upgrade; then the origin allow-list may write 403;
only after both checks does the websocket handshake complete and the
client join the set. -/
def handleUpgrade (env : AuthEnv) (wsAllowedOrigins : Option String)
    (req : UpgradeRequest) : UpgradeOutcome :=
  let allowedOrigins := parseAllowedOrigins wsAllowedOrigins
  if ¬ jsStartsWith (urlOf req) "/ws" then
    { wroteStatus := none, clientAdded := false }
  else
    let ctx := buildAuthContext req
    match authenticateRequest env ctx.1 with
    | none => { wroteStatus := some 401, clientAdded := false }
    | some _user =>
      if ¬ isOriginAllowed allowedOrigins (lookupHeader req.headers "origin") then
        { wroteStatus := some 403, clientAdded := false }
      else
        { wroteStatus := none, clientAdded := true }

/-- One connected client as broadcast sees it: whether readyState is
OPEN, and whether a write on it would fail (transport state; the ws send
reports failure through a callback and never throws into the loop). -/
structure WsClient where
  isOpen : Bool
  sendFails : Bool
  deriving Repr, DecidableEq

/-- broadcast(type, data): nothing happens on an empty client set;
otherwise the frame serializing ts, type and data is sent to exactly the
clients whose socket is open.  The result lists, per client, the frame
handed to its send call (none when skipped). -/
def broadcast (now : String) (clients : List WsClient) (type : String) (data : JsVal) :
    List (Option JsVal) :=
  if clients.isEmpty then []
  else
    let frame : JsVal := .obj [("ts", .str now), ("type", .str type), ("data", data)]
    clients.map (fun c => if c.isOpen then some frame else none)

/-! ## Agent response normalization and result envelopes
(services/orchestrator-svc/src/index.js) -/

/-- normalizeAgentResponse: falsy or non-object returns are wrapped as a
completed envelope carrying the value as result; objects whose status is
the deferred or completed constant, or any other truthy string, pass
through unchanged; everything else is wrapped. -/
def normalizeAgentResponse (response : JsVal) : JsVal :=
  if ¬ (response.truthy ∧ response.typeofObject) then
    .obj [("status", .str "completed"), ("result", response)]
  else
    let st := getField response "status"
    if st.eqStr "deferred" ∨ st.eqStr "completed" then response
    else if st.truthy ∧ st.isString then response
    else .obj [("status", .str "completed"), ("result", response)]

/-- Modelled from the spec (section 4.3 step 4), for comparison with the
code: the spec says any return lacking the completed-or-deferred
envelope is an implicit COMPLETED carrying that value as result. -/
def specNormalizeAgentResponse (response : JsVal) : JsVal :=
  if response.typeofObject ∧ response.truthy ∧
      ((getField response "status").eqStr "deferred" ∨
       (getField response "status").eqStr "completed") then
    response
  else
    .obj [("status", .str "completed"), ("result", response)]

/-- The amended normalization claim: objects with any truthy string
status pass through; everything else is wrapped. -/
def amendedNormalizeAgentResponse (response : JsVal) : JsVal :=
  if response.typeofObject ∧ response.truthy ∧
      (getField response "status").truthy ∧ (getField response "status").isString then
    response
  else
    .obj [("status", .str "completed"), ("result", response)]

/-- cleanExtras: drop fields whose value is undefined. -/
def cleanExtras (extras : List (String × JsVal)) : List (String × JsVal) :=
  extras.filter (fun kv => ¬ kv.2.isUndefined)

/-- buildAgentResult: the envelope holds the agent stamp, the cleaned
extras, and an output field set from the payload (null-coalesced), or
set to null when the payload is undefined and the extras supplied no
output. -/
def buildAgentResult (slug channel : String) (payload : JsVal)
    (extras : List (String × JsVal)) : JsVal :=
  let base : List (String × JsVal) :=
    objSpread [("agent", .obj [("slug", .str slug), ("channel", .str channel)])]
      (cleanExtras extras)
  if ¬ payload.isUndefined then
    .obj (setField base "output" (match payload with
      | .jnull => .jnull
      | v => v))
  else if (base.find? (fun kv => kv.1 = "output")).isNone then
    .obj (setField base "output" .jnull)
  else
    .obj base

/-! ## Handler registry (current HandlerRegistry with env dispatch
handlers and getBySlug) -/

/-- A handler definition as fed to register.  The execute and dispatch
closures are reduced to presence flags (hasExecute: execute is a
function; hasDispatch: dispatch is a function), which is what the
engine's control flow tests. -/
structure HandlerRecord where
  id : Option String := none
  slug : String
  displayName : String := ""
  channel : String := ""
  mode : Option String := none
  taskTypes : List String := []
  hasExecute : Bool := false
  hasDispatch : Bool := false
  source : Option String := none
  deriving Repr, DecidableEq

/-- sanitizeArray on task types: values coerce to strings (already
strings here) and falsy entries drop. -/
def sanitizeTaskTypes (types : List String) : List String :=
  types.filter (fun t => t ≠ "")

/-- The normalized record register stores: defaults applied for mode and
source, task types sanitized. -/
def normalizeHandlerRecord (d : HandlerRecord) : HandlerRecord :=
  { d with
    mode := some ((d.mode.filter (fun m => m ≠ "")).getD "inline")
    taskTypes := sanitizeTaskTypes d.taskTypes
    source := some ((d.source.filter (fun s => s ≠ "")).getD "inline") }

/-- The registry state: the slug map and the task-type index. -/
structure HandlerRegistry where
  handlers : List (String × HandlerRecord) := []
  taskTypeIndex : List (String × HandlerRecord) := []
  deriving Repr

/-- register: reject empty task-type sets, then index the normalized
definition under its slug and under every declared type, overwriting any
prior owner of the same type. -/
def registerHandler (reg : HandlerRegistry) (d : HandlerRecord) : HandlerRegistry :=
  let taskTypes := sanitizeTaskTypes d.taskTypes
  if taskTypes.isEmpty then reg
  else
    let n := normalizeHandlerRecord d
    { handlers := mapSet reg.handlers n.slug n
      taskTypeIndex := taskTypes.foldl (fun idx t => mapSet idx t n) reg.taskTypeIndex }

/-- The constructor loop: register every definition in order. -/
def registerAll (reg : HandlerRegistry) (defs : List HandlerRecord) : HandlerRegistry :=
  defs.foldl registerHandler reg

/-- resolve(taskType). -/
def resolveType (reg : HandlerRegistry) (taskType : String) : Option HandlerRecord :=
  mapGet reg.taskTypeIndex taskType

/-- getBySlug(slug): falsy slugs short-circuit to null. -/
def getBySlug (reg : HandlerRegistry) (slug : String) : Option HandlerRecord :=
  if slug = "" then none else mapGet reg.handlers slug

/-- The built-in inline echo handler. -/
def echoInlineHandler : HandlerRecord :=
  { slug := "agent:echo-inline"
    displayName := "Echo Agent (Inline)"
    channel := "demo"
    mode := some "inline"
    taskTypes := ["echo"]
    hasExecute := true
    source := some "built-in" }

/-- A persisted agent_registry row (config already parsed). -/
structure AgentRow where
  id : Option String := none
  slug : String
  display_name : String := ""
  channel : String := ""
  configTaskTypes : List String := []
  configMode : Option String := none
  configEndpoint : Option String := none
  deriving Repr

/-- normalizeMode: lowercase, keep inline and dispatch, default to
dispatch. -/
def normalizeMode (value : Option String) : String :=
  let mode := jsToLower (value.getD "")
  if mode = "inline" ∨ mode = "dispatch" then mode else "dispatch"

/-- createHandlerFromAgentRow: drop rows without sanitized task types;
dispatch-mode rows get a dispatch executor exactly when an endpoint url
is configured; the handler is tagged with the agent_registry source. -/
def createHandlerFromAgentRow (row : AgentRow) : Option HandlerRecord :=
  let taskTypes := sanitizeTaskTypes row.configTaskTypes
  if taskTypes.isEmpty then none
  else
    let mode := normalizeMode row.configMode
    some
      { id := row.id
        slug := row.slug
        displayName := row.display_name
        channel := row.channel
        mode := some mode
        taskTypes := taskTypes
        hasExecute := false
        hasDispatch := mode = "dispatch" ∧ envTruthy row.configEndpoint
        source := some "agent_registry" }

/-- The env urls the four dispatch-handler constructors read. -/
structure EnvCfg where
  callAgentUrl : Option String := none
  messagingAgentUrl : Option String := none
  emailAgentUrl : Option String := none
  contentAgentUrl : Option String := none

/-- createCallDispatchHandler (null when CALL_AGENT_URL is falsy). -/
def createCallDispatchHandler (env : EnvCfg) : Option HandlerRecord :=
  if ¬ envTruthy env.callAgentUrl then none
  else some
    { slug := "call-agent", displayName := "Call Agent", channel := "voice"
      mode := some "dispatch", taskTypes := ["call.start"]
      hasDispatch := true, source := some "env" }

/-- createMessagingDispatchHandler. -/
def createMessagingDispatchHandler (env : EnvCfg) : Option HandlerRecord :=
  if ¬ envTruthy env.messagingAgentUrl then none
  else some
    { slug := "messaging-agent", displayName := "Messaging Agent", channel := "messaging"
      mode := some "dispatch", taskTypes := ["sms.send", "whatsapp.send"]
      hasDispatch := true, source := some "env" }

/-- createEmailDispatchHandler. -/
def createEmailDispatchHandler (env : EnvCfg) : Option HandlerRecord :=
  if ¬ envTruthy env.emailAgentUrl then none
  else some
    { slug := "email-agent", displayName := "Email Agent", channel := "email"
      mode := some "dispatch", taskTypes := ["email.send"]
      hasDispatch := true, source := some "env" }

/-- createContentDispatchHandler. -/
def createContentDispatchHandler (env : EnvCfg) : Option HandlerRecord :=
  if ¬ envTruthy env.contentAgentUrl then none
  else some
    { slug := "content-agent", displayName := "Content Agent", channel := "content"
      mode := some "dispatch", taskTypes := ["content.generate"]
      hasDispatch := true, source := some "env" }

/-- The env handler list in the order build pushes them. -/
def envHandlers (env : EnvCfg) : List HandlerRecord :=
  (createCallDispatchHandler env).toList ++
  (createMessagingDispatchHandler env).toList ++
  (createEmailDispatchHandler env).toList ++
  (createContentDispatchHandler env).toList

/-- The full definition list HandlerRegistry.build feeds to the
constructor: inline handlers first, then the persisted agent handlers,
then the env-declared dispatch handlers. -/
def buildHandlerList (rows : List AgentRow) (env : EnvCfg) : List HandlerRecord :=
  [echoInlineHandler] ++ rows.filterMap createHandlerFromAgentRow ++ envHandlers env

/-- HandlerRegistry.build as a function of the persisted agent rows and
the env configuration. -/
def buildRegistry (rows : List AgentRow) (env : EnvCfg) : HandlerRegistry :=
  registerAll {} (buildHandlerList rows env)

/-- resolveHandlerForTaskType over the module-level registry reference:
falsy types resolve to nothing; a missing registry is built first; a
miss rebuilds from the store exactly once and retries.  Returns the
resolution result, the new registry reference, and how many rebuilds
ran. -/
def resolveHandlerForTaskType (reg0 : Option HandlerRegistry)
    (rows : List AgentRow) (env : EnvCfg) (taskType : String) :
    Option HandlerRecord × Option HandlerRegistry × Nat :=
  if taskType = "" then (none, reg0, 0)
  else
    let (reg, builds0) :=
      match reg0 with
      | some r => (r, 0)
      | none => (buildRegistry rows env, 1)
    match resolveType reg taskType with
    | some h => (some h, some reg, builds0)
    | none =>
      let reg1 := buildRegistry rows env
      (resolveType reg1 taskType, some reg1, builds0 + 1)

/-- The lookup pair resolveHandlerForExistingTask performs on one
registry snapshot: the bound agent slug first (when truthy), then the
task type. -/
def lookupHandlerIn (r : HandlerRegistry) (agentSlug : Option String)
    (taskType : String) : Option HandlerRecord :=
  match (match agentSlug with
         | some s => if s = "" then none else getBySlug r s
         | none => none) with
  | some h => some h
  | none => resolveType r taskType

/-- resolveHandlerForExistingTask: prefer the bound agent slug, fall
back to the task type, and on a miss rebuild exactly once and retry the
same two lookups. -/
def resolveHandlerForExistingTask (reg0 : Option HandlerRegistry)
    (rows : List AgentRow) (env : EnvCfg)
    (agentSlug : Option String) (taskType : String) :
    Option HandlerRecord × Option HandlerRegistry × Nat :=
  let (reg, builds0) :=
    match reg0 with
    | some r => (r, 0)
    | none => (buildRegistry rows env, 1)
  match lookupHandlerIn reg agentSlug taskType with
  | some h => (some h, some reg, builds0)
  | none =>
    let reg1 := buildRegistry rows env
    (lookupHandlerIn reg1 agentSlug taskType, some reg1, builds0 + 1)

/-! ## The processing state machine (processTask) -/

/-- The observable outcome of one processTask run: the final store, the
task rows broadcast after each successful patch (in order), and every
applyTaskPatch attempt as the version it carried paired with whether it
succeeded. -/
structure ProcOut where
  db : Db
  broadcasts : List TaskRow
  attempts : List (Nat × Bool)
  deriving Repr

/-- The catch block of processTask: best-effort CAS to the error status
at the latest known version; a failure of this final patch is only
logged and the store is left as it was. -/
def catchBranch (db : Db) (task : TaskRow) (latestVersion : Nat)
    (bc : List TaskRow) (at0 : List (Nat × Bool)) (msg : String) : ProcOut :=
  let patch : Patch := { status := some "error", error := some (.obj [("message", .str msg)]) }
  let event : EventInput :=
    { actor := "orchestrator", kind := "error", data := some (.obj [("message", .str msg)]) }
  match applyTaskPatch db task.id latestVersion patch (some event) with
  | (db1, .ok (erroredTask, _)) =>
    { db := db1, broadcasts := bc ++ [erroredTask], attempts := at0 ++ [(latestVersion, true)] }
  | (db1, .error _) =>
    { db := db1, broadcasts := bc, attempts := at0 ++ [(latestVersion, false)] }

/-- The continuation of processTask after a successful CAS to running:
resolve outcome inspection, handler invocation outcome, normalization,
the deferred pending-snapshot patch with its dispatch_ack event, or the
running-to-done completion patch; every thrown exception falls to the
catch block at the latest successfully read version. -/
def processTaskAfterRunning (db1 : Db) (task runningTask : TaskRow)
    (handlerOpt : Option HandlerRecord) (invokeResult : Except String JsVal) : ProcOut :=
  let bc1 := [runningTask]
  let at1 := [(task.version, true)]
  match handlerOpt with
  | none =>
    catchBranch db1 task runningTask.version bc1 at1 ("UNSUPPORTED_TYPE:" ++ task.type)
  | some handler =>
    if ¬ ((handler.mode = some "inline" ∧ handler.hasExecute) ∨ handler.hasDispatch) then
      catchBranch db1 task runningTask.version bc1 at1
        ("Agent for " ++ task.type ++ " does not implement execute/dispatch")
    else
      match invokeResult with
      | .error msg => catchBranch db1 task runningTask.version bc1 at1 msg
      | .ok resp =>
        let normalized := normalizeAgentResponse resp
        if (getField normalized "status").eqStr "deferred" then
          let nres := getField normalized "result"
          let nack := getField normalized "ack"
          let nmeta := getField normalized "metadata"
          if nres.truthy ∨ nack.truthy ∨ nmeta.truthy then
            let agentResult := buildAgentResult handler.slug handler.channel (jsOrNull nres)
              [("status", .str "pending"), ("ack", jsOrNull nack), ("metadata", jsOrNull nmeta)]
            match applyTaskPatch db1 runningTask.id runningTask.version
                { result := some agentResult }
                (some { actor := handler.slug, kind := "dispatch_ack",
                        data := some agentResult }) with
            | (db2, .ok (pendingTask, _)) =>
              { db := db2, broadcasts := bc1 ++ [pendingTask],
                attempts := at1 ++ [(runningTask.version, true)] }
            | (db2, .error _) =>
              catchBranch db2 task runningTask.version bc1
                (at1 ++ [(runningTask.version, false)]) "Task version conflict"
          else
            { db := db1, broadcasts := bc1, attempts := at1 }
        else
          let agentResult := buildAgentResult handler.slug handler.channel
            (getField normalized "result") [("status", .str "completed")]
          match applyTaskPatch db1 task.id runningTask.version
              { status := some "done", result := some agentResult }
              (some { actor := "orchestrator", kind := "result",
                      data := some (.obj [("preview", previewResult agentResult)]) }) with
          | (db2, .ok (completedTask, _)) =>
            { db := db2, broadcasts := bc1 ++ [completedTask],
              attempts := at1 ++ [(runningTask.version, true)] }
          | (db2, .error _) =>
            catchBranch db2 task runningTask.version bc1
              (at1 ++ [(runningTask.version, false)]) "Task version conflict"

/-- processTask: CAS queued-to-running at the creation version (on
failure the catch block patches at the still-stale version, which also
loses); on success the run continues in processTaskAfterRunning with the
freshly returned row. -/
def processTask (db0 : Db) (task : TaskRow) (handlerOpt : Option HandlerRecord)
    (invokeResult : Except String JsVal) : ProcOut :=
  let runningPatch : Patch := { status := some "running" }
  let runningEvent : EventInput :=
    { actor := "orchestrator", kind := "status_change",
      data := some (.obj [("from", .str "queued"), ("to", .str "running")]) }
  match applyTaskPatch db0 task.id task.version runningPatch (some runningEvent) with
  | (db1, .error _) =>
    catchBranch db1 task task.version [] [(task.version, false)] "Task version conflict"
  | (db1, .ok (runningTask, _ev)) =>
    processTaskAfterRunning db1 task runningTask handlerOpt invokeResult

/-- The status test of spec section 8: a broadcastable row is terminal
(done or error) or carries a pending result snapshot. -/
def isTerminalOrPending (r : TaskRow) : Bool :=
  r.status == "done" || r.status == "error" ||
    (match r.result with
     | some v => (getField v "status").eqStr "pending"
     | none => false)

/-- A persisted agent row owning the call.start task type, used to
exercise registry priority. -/
def persistedCallAgentRow : AgentRow :=
  { slug := "my-call", display_name := "My Call Agent", channel := "voice",
    configTaskTypes := ["call.start"], configMode := some "dispatch",
    configEndpoint := some "http://persisted.example" }

/-- An environment configuring only the call dispatch target. -/
def callOnlyEnvCfg : EnvCfg := { callAgentUrl := some "http://call.example" }


/-- The event row applyTaskPatch persists when it matched row r: ids
and clock from the transaction, actor/kind/data from the caller event,
correlation and trace ids from the freshly patched row. -/
def patchEventRow (db : Db) (id : String) (p : Patch) (ev : EventInput)
    (r : TaskRow) : EventRow :=
  { id := db.nextEventId
    task_id := id
    ts_utc := db.now
    actor := ev.actor
    kind := ev.kind
    data := match ev.data with
      | some d => if d.truthy then some d else none
      | none => none
    correlation_id := strOrNull (applyRowPatch db.now p r).correlation_id
    trace_id := strOrNull (some (applyRowPatch db.now p r).trace_id) }

/-- A freshly created task row used by concrete witnesses. -/
def wTask0 : TaskRow :=
  { id := "t1", type := "echo", status := "queued", source := "test",
    payload := .obj [], result := none, error := none,
    correlation_id := none, trace_id := "tr", version := 0,
    agent_id := none, agent_slug := none, agent_display_name := none,
    agent_channel := none, created_at := 5, updated_at := 5 }

/-- A store holding the fresh row. -/
def wDb : Db := { tasks := [wTask0], events := [], now := 7, nextEventId := 0 }

/-- The same row after another writer advanced it to version 1. -/
def wTask1 : TaskRow := { wTask0 with version := 1 }

/-- A store in which the engine's creation-time version 0 is stale. -/
def wDb2 : Db := { tasks := [wTask1], events := [], now := 9, nextEventId := 3 }

/-- The row of wDb after the running patch of the witnesses. -/
def wRunningTask : TaskRow :=
  { wTask0 with status := "running", version := 1, updated_at := 7 }

/-- The event the witness patch persists. -/
def wStatusEvent : EventRow :=
  { id := 0, task_id := "t1", ts_utc := 7, actor := "internal",
    kind := "status_change", data := none, correlation_id := none,
    trace_id := some "tr" }

/-- The store after the witness patch. -/
def wDbAfter : Db :=
  { tasks := [wRunningTask], events := [wStatusEvent], now := 7, nextEventId := 1 }

/-- A caller event carrying foreign correlation and trace ids. -/
def wAlienEvent : EventInput :=
  { actor := "internal", kind := "status_change",
    correlationId := some "alien", traceId := some "alien" }

/-! ## Association-list lemmas -/

theorem mapGet_cons {α : Type} (kv : String × α) (m : List (String × α)) (k : String) :
    mapGet (kv :: m) k = if kv.1 = k then some kv.2 else mapGet m k := by
  by_cases h : kv.1 = k <;> simp [mapGet, List.find?, h]

theorem mapGet_mapSet_self {α : Type} (m : List (String × α)) (k : String) (v : α) :
    mapGet (mapSet m k v) k = some v := by
  induction m with
  | nil => simp [mapSet, mapGet, List.find?]
  | cons kv rest ih =>
    by_cases h : kv.1 = k
    · simp [mapSet, h, mapGet_cons]
    · simp [mapSet, h, mapGet_cons, ih]

theorem mapGet_mapSet_ne {α : Type} (m : List (String × α)) (k k' : String) (v : α)
    (hne : k' ≠ k) : mapGet (mapSet m k v) k' = mapGet m k' := by
  have hkk : ¬ (k = k') := fun h => hne h.symm
  induction m with
  | nil => simp [mapSet, mapGet, List.find?, hkk]
  | cons kv rest ih =>
    by_cases h : kv.1 = k
    · rw [mapSet, if_pos h, mapGet_cons, mapGet_cons, if_neg hkk, if_neg]
      rw [h]; exact hkk
    · rw [mapSet, if_neg h, mapGet_cons, mapGet_cons, ih]

theorem mapGet_foldl_mapSet {α : Type} (ts : List String) (m : List (String × α))
    (v : α) (t : String) :
    mapGet (ts.foldl (fun acc t' => mapSet acc t' v) m) t =
      if ts.contains t then some v else mapGet m t := by
  induction ts generalizing m with
  | nil => simp
  | cons t0 rest ih =>
    rw [List.foldl_cons, ih]
    by_cases hrest : t ∈ rest
    · simp [hrest]
    · by_cases h0 : t = t0
      · subst h0
        simp [hrest, mapGet_mapSet_self]
      · simp [hrest, h0, mapGet_mapSet_ne m t0 t v h0]

/-! ## Registry lemmas -/

theorem resolveType_registerHandler (reg : HandlerRegistry) (d : HandlerRecord) (t : String) :
    resolveType (registerHandler reg d) t =
      if (sanitizeTaskTypes d.taskTypes).contains t then some (normalizeHandlerRecord d)
      else resolveType reg t := by
  unfold registerHandler
  by_cases he : (sanitizeTaskTypes d.taskTypes).isEmpty
  · rw [if_pos he]
    have hnil : sanitizeTaskTypes d.taskTypes = [] := List.isEmpty_iff.mp he
    simp [hnil]
  · rw [if_neg he]
    show mapGet (List.foldl (fun idx t' => mapSet idx t' (normalizeHandlerRecord d))
      reg.taskTypeIndex (sanitizeTaskTypes d.taskTypes)) t = _
    rw [mapGet_foldl_mapSet]
    by_cases hc : t ∈ sanitizeTaskTypes d.taskTypes <;> simp [hc, resolveType]

theorem resolveType_registerAll (reg : HandlerRegistry) (defs : List HandlerRecord) (t : String) :
    resolveType (registerAll reg defs) t =
      match defs.reverse.find? (fun d => (sanitizeTaskTypes d.taskTypes).contains t) with
      | some d => some (normalizeHandlerRecord d)
      | none => resolveType reg t := by
  induction defs generalizing reg with
  | nil => simp [registerAll]
  | cons d ds ih =>
    show resolveType (registerAll (registerHandler reg d) ds) t = _
    rw [ih, List.reverse_cons, List.find?_append]
    cases hds : ds.reverse.find? (fun d => (sanitizeTaskTypes d.taskTypes).contains t) with
    | some e => simp
    | none =>
      simp only [Option.none_orElse]
      rw [resolveType_registerHandler]
      by_cases hc : t ∈ sanitizeTaskTypes d.taskTypes <;> simp [List.find?, hc]

theorem resolveType_emptyRegistry (t : String) : resolveType {} t = none := rfl

theorem envHandlers_source (env : EnvCfg) (d : HandlerRecord) (hd : d ∈ envHandlers env) :
    d.source = some "env" := by
  unfold envHandlers at hd
  unfold createCallDispatchHandler createMessagingDispatchHandler
    createEmailDispatchHandler createContentDispatchHandler at hd
  simp only [List.mem_append, Option.mem_toList, Option.mem_def] at hd
  rcases hd with ((h | h) | h) | h <;> split at h <;>
    simp_all <;> exact (congrArg HandlerRecord.source h.symm)

theorem not_mem_sanitize_empty (l : List String) : "" ∉ sanitizeTaskTypes l := by
  simp [sanitizeTaskTypes, List.mem_filter]

theorem resolveType_buildRegistry_empty_type (rows : List AgentRow) (env : EnvCfg) :
    resolveType (buildRegistry rows env) "" = none := by
  rw [buildRegistry, resolveType_registerAll]
  have : (buildHandlerList rows env).reverse.find?
      (fun d => (sanitizeTaskTypes d.taskTypes).contains "") = none := by
    apply List.find?_eq_none.mpr
    intro d _
    simp [not_mem_sanitize_empty]
  rw [this]
  exact resolveType_emptyRegistry ""

/-- C4 counterexample: a persisted agent row declaring call.start
together with an env-configured call dispatch target does not resolve to
the persisted agent's handler: the env handler, registered after the
persisted one, owns the type. -/
theorem handlerRegistry_priority_counterexample :
    (resolveType (buildRegistry [persistedCallAgentRow] callOnlyEnvCfg) "call.start").map
        (fun h => (h.slug, h.source)) = some ("call-agent", some "env") ∧
    (createHandlerFromAgentRow persistedCallAgentRow).map
        (fun h => (h.slug, h.source)) = some ("my-call", some "agent_registry") ∧
    ("call-agent" : String) ≠ "my-call" := by
  refine ⟨by rfl, by rfl, by decide⟩

/-- C4 (amended): the registry build registers built-in inline handlers,
then persisted agents, then env-declared dispatch targets, and a later
registration overrides earlier owners of a type; so resolve(t) is the
last handler in that order declaring t, which makes the priority
env-declared over persisted over built-in.  In particular whenever an
env-declared handler owns t, resolution yields an env-sourced handler. -/
theorem handlerRegistry_priority (rows : List AgentRow) (env : EnvCfg) (t : String) :
    (resolveType (buildRegistry rows env) t =
      ((buildHandlerList rows env).reverse.find?
        (fun d => (sanitizeTaskTypes d.taskTypes).contains t)).map normalizeHandlerRecord) ∧
    (∀ d ∈ envHandlers env, (sanitizeTaskTypes d.taskTypes).contains t →
      ∃ h, resolveType (buildRegistry rows env) t = some h ∧ h.source = some "env") := by
  constructor
  · rw [buildRegistry, resolveType_registerAll]
    cases h : (buildHandlerList rows env).reverse.find?
        (fun d => (sanitizeTaskTypes d.taskTypes).contains t) <;>
      simp [resolveType_emptyRegistry]
  · intro d hd hc
    have hrev : (buildHandlerList rows env).reverse =
        (envHandlers env).reverse ++
          ((rows.filterMap createHandlerFromAgentRow).reverse ++ [echoInlineHandler]) := by
      simp [buildHandlerList]
    have hex : ∃ x ∈ (envHandlers env).reverse,
        (fun d => (sanitizeTaskTypes d.taskTypes).contains t) x = true :=
      ⟨d, by simpa using hd, hc⟩
    have hsome : ((envHandlers env).reverse.find?
        (fun d => (sanitizeTaskTypes d.taskTypes).contains t)).isSome :=
      List.find?_isSome.mpr hex
    obtain ⟨e, he⟩ := Option.isSome_iff_exists.mp hsome
    have hmem : e ∈ (envHandlers env).reverse := List.mem_of_find?_eq_some he
    have hesrc := envHandlers_source env e (by simpa using hmem)
    refine ⟨normalizeHandlerRecord e, ?_, ?_⟩
    · rw [buildRegistry, resolveType_registerAll, hrev, List.find?_append, he]
      simp
    · simp [normalizeHandlerRecord, hesrc, Option.filter]

/-- C10: when a handler lookup misses in the current snapshot, the
resolvers rebuild from the store exactly once and retry the same lookup;
hence a task type (at creation) or a bound slug or type (during
processing) that the rebuilt registry resolves never concludes
unsupported. -/
theorem resolveHandler_rebuild_once (reg0 : Option HandlerRegistry)
    (rows : List AgentRow) (env : EnvCfg) (slugOpt : Option String) (t : String) :
    (∀ r, reg0 = some r → t ≠ "" → resolveType r t = none →
      resolveHandlerForTaskType reg0 rows env t =
        (resolveType (buildRegistry rows env) t, some (buildRegistry rows env), 1)) ∧
    (∀ h, resolveType (buildRegistry rows env) t = some h →
      (resolveHandlerForTaskType reg0 rows env t).1.isSome = true) ∧
    (∀ r, reg0 = some r → lookupHandlerIn r slugOpt t = none →
      resolveHandlerForExistingTask reg0 rows env slugOpt t =
        (lookupHandlerIn (buildRegistry rows env) slugOpt t,
         some (buildRegistry rows env), 1)) ∧
    (∀ s h, slugOpt = some s → getBySlug (buildRegistry rows env) s = some h →
      (resolveHandlerForExistingTask reg0 rows env slugOpt t).1.isSome = true) ∧
    (∀ h, resolveType (buildRegistry rows env) t = some h →
      (resolveHandlerForExistingTask reg0 rows env slugOpt t).1.isSome = true) := by
  refine ⟨?_, ?_, ?_, ?_, ?_⟩
  · intro r hr ht hmiss
    subst hr
    simp [resolveHandlerForTaskType, ht, hmiss]
  · intro h hhit
    have ht : t ≠ "" := by
      intro h0
      subst h0
      rw [resolveType_buildRegistry_empty_type] at hhit
      exact Option.noConfusion hhit
    unfold resolveHandlerForTaskType
    rw [if_neg ht]
    cases reg0 with
    | none => simp [hhit]
    | some r =>
      cases hr : resolveType r t with
      | some h0 => simp [hr]
      | none => simp [hr, hhit]
  · intro r hr hmiss
    subst hr
    simp [resolveHandlerForExistingTask, hmiss]
  · intro s h hs hslug
    subst hs
    have hne : s ≠ "" := by
      intro h0
      subst h0
      simp [getBySlug] at hslug
    have hrebuilt : (lookupHandlerIn (buildRegistry rows env) (some s) t).isSome := by
      simp [lookupHandlerIn, hne, hslug]
    unfold resolveHandlerForExistingTask
    cases reg0 with
    | none =>
      cases hl : lookupHandlerIn (buildRegistry rows env) (some s) t with
      | some h0 => simp [hl]
      | none => rw [hl] at hrebuilt; simp at hrebuilt
    | some r =>
      cases hl : lookupHandlerIn r (some s) t with
      | some h0 => simp [hl]
      | none => simp [hl, hrebuilt]
  · intro h hhit
    have hrebuilt : (lookupHandlerIn (buildRegistry rows env) slugOpt t).isSome := by
      unfold lookupHandlerIn
      cases hsl : (match slugOpt with
                   | some s => if s = "" then none else getBySlug (buildRegistry rows env) s
                   | none => none) with
      | some h0 => simp
      | none => simp [hhit]
    unfold resolveHandlerForExistingTask
    cases reg0 with
    | none =>
      cases hl : lookupHandlerIn (buildRegistry rows env) slugOpt t with
      | some h0 => simp [hl]
      | none => rw [hl] at hrebuilt; simp at hrebuilt
    | some r =>
      cases hl : lookupHandlerIn r slugOpt t with
      | some h0 => simp [hl]
      | none => simp [hl, hrebuilt]

/-! ## Websocket and broadcast theorems -/

/-- C3: for every upgrade request at /ws the handshake runs the same
authenticateRequest check the HTTP endpoints use (shared-secret header
or Basic credentials), after translating a ?auth= query parameter into a
Basic Authorization header; a request the check rejects is answered 401
and never added to the connected-client set, and a client is only added
when the check succeeded. -/
theorem websocket_upgrade_auth (env : AuthEnv) (origins : Option String)
    (req : UpgradeRequest) (hws : jsStartsWith (urlOf req) "/ws" = true) :
    (authenticateRequest env (buildAuthContext req).1 = none →
      handleUpgrade env origins req = { wroteStatus := some 401, clientAdded := false }) ∧
    ((handleUpgrade env origins req).clientAdded = true →
      ∃ u, authenticateRequest env (buildAuthContext req).1 = some u) ∧
    (∀ t, lookupQuery req.query "auth" = some t → t ≠ "" →
      headerFalsy (lookupHeader req.headers "authorization") = true →
      lookupHeader (buildAuthContext req).1 "authorization" = some ("Basic " ++ t)) := by
  have h401 : authenticateRequest env (buildAuthContext req).1 = none →
      handleUpgrade env origins req = { wroteStatus := some 401, clientAdded := false } := by
    intro hauth
    unfold handleUpgrade
    rw [if_neg (by simp [hws])]
    simp [hauth]
  refine ⟨h401, ?_, ?_⟩
  · intro hadded
    cases hauth : authenticateRequest env (buildAuthContext req).1 with
    | some u => exact ⟨u, rfl⟩
    | none => rw [h401 hauth] at hadded; simp at hadded
  · intro t hqt htne hfalsy
    show lookupHeader (buildAuthContext req).1 "authorization" = some ("Basic " ++ t)
    unfold buildAuthContext
    simp only [hqt]
    rw [if_pos ⟨htne, hfalsy⟩]
    cases hik : lookupQuery req.query "internalKey" with
    | none =>
      simpa [lookupHeader] using
        mapGet_mapSet_self req.headers "authorization" ("Basic " ++ t)
    | some k =>
      show lookupHeader
        (if k ≠ "" ∧ headerFalsy (lookupHeader
            (mapSet req.headers "authorization" ("Basic " ++ t)) "x-internal-key") = true then
          mapSet (mapSet req.headers "authorization" ("Basic " ++ t)) "x-internal-key" k
        else mapSet req.headers "authorization" ("Basic " ++ t)) "authorization" =
          some ("Basic " ++ t)
      split
      · show mapGet (mapSet (mapSet req.headers "authorization" ("Basic " ++ t))
          "x-internal-key" k) "authorization" = some ("Basic " ++ t)
        rw [mapGet_mapSet_ne _ _ _ _ (by decide)]
        exact mapGet_mapSet_self req.headers "authorization" ("Basic " ++ t)
      · exact mapGet_mapSet_self req.headers "authorization" ("Basic " ++ t)

/-- C3 witness: a /ws upgrade with no credentials is answered 401 and
never joins the client set. -/
theorem websocket_upgrade_auth_witness :
    handleUpgrade { internalKey := none, basicUser := some "user", basicPass := some "pass" }
        none { path := "/ws" } =
      { wroteStatus := some 401, clientAdded := false } :=
  (websocket_upgrade_auth
    { internalKey := none, basicUser := some "user", basicPass := some "pass" }
    none { path := "/ws" } (by rfl)).1 (by rfl)

/-- C8: broadcast(type, data) hands the serialized ts/type/data frame to
the send call of every client whose socket is open and only those; the
frame a client receives is a function of that client's own state alone,
so a write failure at one client cannot affect delivery to the others. -/
theorem broadcast_fanout (now : String) (clients : List WsClient) (type : String)
    (data : JsVal) (hne : clients ≠ []) :
    (broadcast now clients type data).length = clients.length ∧
    (∀ (i : Nat) (c : WsClient), clients[i]? = some c →
      (broadcast now clients type data)[i]? =
        some (if c.isOpen then
          some (.obj [("ts", .str now), ("type", .str type), ("data", data)])
        else none)) ∧
    (∀ (clients2 : List WsClient) (i : Nat) (c : WsClient),
      clients2 ≠ [] → clients2[i]? = some c → clients[i]? = some c →
      (broadcast now clients2 type data)[i]? = (broadcast now clients type data)[i]?) := by
  have hbe : clients.isEmpty = false := by simpa [List.isEmpty_iff] using hne
  have key : ∀ (cs : List WsClient), cs.isEmpty = false →
      ∀ (i : Nat) (c : WsClient), cs[i]? = some c →
      (broadcast now cs type data)[i]? =
        some (if c.isOpen then
          some (.obj [("ts", .str now), ("type", .str type), ("data", data)])
        else none) := by
    intro cs hcs i c hc
    simp [broadcast, hcs, List.getElem?_map, hc]
  refine ⟨by simp [broadcast, hbe], key clients hbe, ?_⟩
  intro clients2 i c hne2 hc2 hc
  have hbe2 : clients2.isEmpty = false := by simpa [List.isEmpty_iff] using hne2
  rw [key clients2 hbe2 i c hc2, key clients hbe i c hc]

/-- C8 witness: three clients, the middle one closed, the first one with
a failing transport: the last client still receives the frame. -/
theorem broadcast_fanout_witness :
    (broadcast "T" [⟨true, true⟩, ⟨false, false⟩, ⟨true, false⟩] "TASK_UPDATE"
        (.str "x"))[2]? =
      some (some (.obj [("ts", .str "T"), ("type", .str "TASK_UPDATE"),
        ("data", .str "x")])) := by
  have h := (broadcast_fanout "T" [⟨true, true⟩, ⟨false, false⟩, ⟨true, false⟩]
    "TASK_UPDATE" (.str "x") (by simp)).2.1 2 ⟨true, false⟩ (by rfl)
  simpa using h

/-! ## Agent response normalization theorems -/

/-- C6 counterexample: a handler return whose status is the string
failed lacks the completed-or-deferred envelope, yet
normalizeAgentResponse passes it through unchanged instead of wrapping
it as an implicit COMPLETED carrying the value as result (the behaviour
the claim states, embodied by specNormalizeAgentResponse). -/
theorem normalizeAgentResponse_counterexample :
    normalizeAgentResponse (.obj [("status", .str "failed")]) =
      .obj [("status", .str "failed")] ∧
    specNormalizeAgentResponse (.obj [("status", .str "failed")]) =
      .obj [("status", .str "completed"), ("result", .obj [("status", .str "failed")])] ∧
    normalizeAgentResponse (.obj [("status", .str "failed")]) ≠
      specNormalizeAgentResponse (.obj [("status", .str "failed")]) := by
  refine ⟨by rfl, by rfl, ?_⟩
  show (JsVal.obj [("status", .str "failed")]) ≠
    (JsVal.obj [("status", .str "completed"), ("result", .obj [("status", .str "failed")])])
  simp

/-- C6 (amended): normalizeAgentResponse passes through every object
whose status field is a truthy string (not only the completed and
deferred envelopes) and wraps every other return as an implicit
COMPLETED carrying the value as result. -/
theorem normalizeAgentResponse_amended (v : JsVal) :
    normalizeAgentResponse v = amendedNormalizeAgentResponse v := by
  unfold normalizeAgentResponse amendedNormalizeAgentResponse
  cases ht : v.truthy <;> cases hto : v.typeofObject <;> simp [ht, hto]
  cases hst : getField v "status" with
  | str s =>
    by_cases hd : s = "deferred"
    · subst hd; simp [JsVal.eqStr, JsVal.truthy, JsVal.isString]
    · by_cases hc : s = "completed"
      · subst hc; simp [JsVal.eqStr, JsVal.truthy, JsVal.isString]
      · by_cases hemp : s = ""
        · subst hemp; simp [JsVal.eqStr, JsVal.truthy, JsVal.isString, hd, hc]
        · simp [JsVal.eqStr, JsVal.truthy, JsVal.isString, hd, hc, hemp]
  | undefined => simp [JsVal.eqStr, JsVal.truthy, JsVal.isString]
  | jnull => simp [JsVal.eqStr, JsVal.truthy, JsVal.isString]
  | bool b => simp [JsVal.eqStr, JsVal.truthy, JsVal.isString]
  | num n => simp [JsVal.eqStr, JsVal.truthy, JsVal.isString]
  | arr xs => simp [JsVal.eqStr, JsVal.truthy, JsVal.isString]
  | obj fs => simp [JsVal.eqStr, JsVal.truthy, JsVal.isString]

/-! ## Persistence-layer lemmas -/

theorem tasks_filter_match (tasks : List TaskRow) (id : String) (v : Nat)
    (hnd : (tasks.map TaskRow.id).Nodup) (r : TaskRow) (hr : r ∈ tasks)
    (hid : r.id = id) (hv : r.version = v) :
    tasks.filter (fun x => x.id = id && x.version = v) = [r] := by
  induction tasks with
  | nil => cases hr
  | cons a l ih =>
    simp only [List.map_cons, List.nodup_cons] at hnd
    rcases List.mem_cons.mp hr with h | h
    · subst h
      rw [List.filter_cons, if_pos (by simp [hid, hv])]
      have hnil : l.filter (fun x => x.id = id && x.version = v) = [] := by
        apply List.filter_eq_nil_iff.mpr
        intro x hx
        simp only [Bool.and_eq_true, decide_eq_true_eq, not_and]
        intro hxid
        exact absurd
          (show r.id ∈ List.map TaskRow.id l by
            rw [hid, ← hxid]; exact List.mem_map_of_mem TaskRow.id hx)
          hnd.1
      rw [hnil]
    · have haid : ¬ (a.id = id) := by
        intro ha
        exact hnd.1 (by rw [ha, ← hid]; exact List.mem_map_of_mem TaskRow.id h)
      rw [List.filter_cons, if_neg (by simp [haid])]
      exact ih hnd.2 h

theorem applyTaskPatch_conflict (db : Db) (id : String) (v : Nat) (p : Patch)
    (ev : Option EventInput) (hf : patchHasFields p = true)
    (hmiss : ∀ r ∈ db.tasks, r.id = id → r.version ≠ v) :
    applyTaskPatch db id v p ev = (db, .error .conflict) := by
  unfold applyTaskPatch
  rw [if_neg (by simp [hf])]
  have hnil : db.tasks.filter (fun r => r.id = id && r.version = v) = [] := by
    apply List.filter_eq_nil_iff.mpr
    intro x hx
    simp only [Bool.and_eq_true, decide_eq_true_eq, not_and]
    exact fun hxid => hmiss x hx hxid
  rw [hnil]

theorem applyTaskPatch_ok (db : Db) (id : String) (v : Nat) (p : Patch)
    (event : Option EventInput) (hf : patchHasFields p = true)
    (hnd : (db.tasks.map TaskRow.id).Nodup)
    (r : TaskRow) (hr : r ∈ db.tasks) (hid : r.id = id) (hv : r.version = v) :
    applyTaskPatch db id v p event =
      match event with
      | some ev =>
        ({ db with
            tasks := db.tasks.map (fun x =>
              if x.id = id && x.version = v then applyRowPatch db.now p x else x)
            events := db.events ++ [patchEventRow db id p ev r]
            nextEventId := db.nextEventId + 1 },
         .ok (applyRowPatch db.now p r, some (patchEventRow db id p ev r)))
      | none =>
        ({ db with
            tasks := db.tasks.map (fun x =>
              if x.id = id && x.version = v then applyRowPatch db.now p x else x) },
         .ok (applyRowPatch db.now p r, none)) := by
  unfold applyTaskPatch
  rw [if_neg (by simp [hf])]
  rw [tasks_filter_match db.tasks id v hnd r hr hid hv]
  cases event with
  | none => rfl
  | some ev => rfl

theorem updatedTasks_id_map (db : Db) (id : String) (v : Nat) (p : Patch) :
    ((db.tasks.map (fun x =>
      if x.id = id && x.version = v then applyRowPatch db.now p x else x)).map
        TaskRow.id) = db.tasks.map TaskRow.id := by
  rw [List.map_map]
  apply List.map_congr_left
  intro x _
  show (if x.id = id && x.version = v then applyRowPatch db.now p x else x).id = x.id
  by_cases h : (x.id = id && x.version = v) = true
  · rw [if_pos h]; rfl
  · rw [if_neg h]

theorem updatedTasks_mem (db : Db) (id : String) (v : Nat) (p : Patch)
    (r : TaskRow) (hr : r ∈ db.tasks) (hid : r.id = id) (hv : r.version = v) :
    applyRowPatch db.now p r ∈
      db.tasks.map (fun x =>
        if x.id = id && x.version = v then applyRowPatch db.now p x else x) := by
  have h := List.mem_map_of_mem
    (fun x => if x.id = id && x.version = v then applyRowPatch db.now p x else x) hr
  simpa [hid, hv] using h

theorem updatedTasks_unique (db : Db) (id : String) (v : Nat) (p : Patch)
    (hnd : (db.tasks.map TaskRow.id).Nodup)
    (r : TaskRow) (hr : r ∈ db.tasks) (hid : r.id = id) (hv : r.version = v) :
    ∀ x ∈ db.tasks.map (fun x =>
        if x.id = id && x.version = v then applyRowPatch db.now p x else x),
      x.id = id → x = applyRowPatch db.now p r := by
  intro x hx hxid
  obtain ⟨y, hy, hfy⟩ := List.mem_map.mp hx
  by_cases hcond : (y.id = id && y.version = v) = true
  · rw [if_pos hcond] at hfy
    obtain ⟨h1, h2⟩ : y.id = id ∧ y.version = v := by simpa using hcond
    have hyr : y = r := List.inj_on_of_nodup_map hnd hy hr (by rw [h1, hid])
    rw [← hfy, hyr]
  · rw [if_neg hcond] at hfy
    subst hfy
    have hyr : y = r := List.inj_on_of_nodup_map hnd hy hr (by rw [hxid, hid])
    subst hyr
    exact absurd (by simp [hid, hv]) hcond

/-- C1: an applyTaskPatch call (carrying at least one field, against a
store whose task ids are unique) succeeds exactly when a stored row
matches the id at version ifVersion; on success the row's version
becomes ifVersion+1 (and it is the only row with that id), updated_at is
refreshed to the transaction clock, the field update and the event
insert land in the same returned state, and any second patch against the
same ifVersion is rejected with ConflictError; a failed patch returns
the store unchanged. -/
theorem applyTaskPatch_optimistic (db : Db) (id : String) (ifVersion : Nat)
    (patch : Patch) (event : Option EventInput)
    (hf : patchHasFields patch = true)
    (hnd : (db.tasks.map TaskRow.id).Nodup) :
    ((applyTaskPatch db id ifVersion patch event).2.isOk = true ↔
      ∃ r ∈ db.tasks, r.id = id ∧ r.version = ifVersion) ∧
    (∀ db' task' evRow',
      applyTaskPatch db id ifVersion patch event = (db', .ok (task', evRow')) →
      task'.version = ifVersion + 1 ∧
      task'.updated_at = db.now ∧
      task' ∈ db'.tasks ∧
      (∀ x ∈ db'.tasks, x.id = id → x = task') ∧
      (match event with
       | some ev => ∃ e, evRow' = some e ∧ db'.events = db.events ++ [e] ∧
           e.kind = ev.kind ∧ e.actor = ev.actor
       | none => evRow' = none ∧ db'.events = db.events) ∧
      (∀ patch2 event2, patchHasFields patch2 = true →
        applyTaskPatch db' id ifVersion patch2 event2 = (db', .error .conflict))) ∧
    ((applyTaskPatch db id ifVersion patch event).2.isOk = false →
      (applyTaskPatch db id ifVersion patch event).1 = db) := by
  have hiff : (applyTaskPatch db id ifVersion patch event).2.isOk = true ↔
      ∃ r ∈ db.tasks, r.id = id ∧ r.version = ifVersion := by
    constructor
    · intro hok
      by_cases hex : ∃ r ∈ db.tasks, r.id = id ∧ r.version = ifVersion
      · exact hex
      · have hmiss : ∀ r ∈ db.tasks, r.id = id → r.version ≠ ifVersion :=
          fun r hr hid0 hv0 => hex ⟨r, hr, hid0, hv0⟩
        rw [applyTaskPatch_conflict db id ifVersion patch event hf hmiss] at hok
        simp [Except.isOk, Except.toBool] at hok
    · rintro ⟨r, hr, hid, hv⟩
      rw [applyTaskPatch_ok db id ifVersion patch event hf hnd r hr hid hv]
      cases event <;> simp [Except.isOk, Except.toBool]
  refine ⟨hiff, ?_, ?_⟩
  · intro db' task' evRow' h
    obtain ⟨r, hr, hid, hv⟩ := hiff.mp (by rw [h]; rfl)
    have heq := applyTaskPatch_ok db id ifVersion patch event hf hnd r hr hid hv
    rw [h] at heq
    cases event with
    | some ev =>
      simp only [Prod.mk.injEq, Except.ok.injEq, Option.some.injEq] at heq
      obtain ⟨hdb', htask', hev'⟩ := heq
      subst hdb'
      refine ⟨?_, ?_, ?_, ?_, ?_, ?_⟩
      · rw [htask']; simp [applyRowPatch, hv]
      · rw [htask']; rfl
      · rw [htask']
        exact updatedTasks_mem db id ifVersion patch r hr hid hv
      · intro x hx hxid
        rw [htask']
        exact updatedTasks_unique db id ifVersion patch hnd r hr hid hv x hx hxid
      · exact ⟨patchEventRow db id patch ev r, hev', rfl, rfl, rfl⟩
      · intro patch2 event2 hf2
        apply applyTaskPatch_conflict _ id ifVersion patch2 event2 hf2
        intro x hx hxid
        have hxe := updatedTasks_unique db id ifVersion patch hnd r hr hid hv x hx hxid
        rw [hxe]
        show (applyRowPatch db.now patch r).version ≠ ifVersion
        simp [applyRowPatch, hv]
    | none =>
      simp only [Prod.mk.injEq, Except.ok.injEq] at heq
      obtain ⟨hdb', htask', hev'⟩ := heq
      subst hdb'
      refine ⟨?_, ?_, ?_, ?_, ?_, ?_⟩
      · rw [htask']; simp [applyRowPatch, hv]
      · rw [htask']; rfl
      · rw [htask']
        exact updatedTasks_mem db id ifVersion patch r hr hid hv
      · intro x hx hxid
        rw [htask']
        exact updatedTasks_unique db id ifVersion patch hnd r hr hid hv x hx hxid
      · exact ⟨hev', rfl⟩
      · intro patch2 event2 hf2
        apply applyTaskPatch_conflict _ id ifVersion patch2 event2 hf2
        intro x hx hxid
        have hxe := updatedTasks_unique db id ifVersion patch hnd r hr hid hv x hx hxid
        rw [hxe]
        show (applyRowPatch db.now patch r).version ≠ ifVersion
        simp [applyRowPatch, hv]
  · intro hfail
    by_cases hex : ∃ r ∈ db.tasks, r.id = id ∧ r.version = ifVersion
    · obtain ⟨r, hr, hid, hv⟩ := hex
      rw [applyTaskPatch_ok db id ifVersion patch event hf hnd r hr hid hv] at hfail
      cases event <;> simp [Except.isOk, Except.toBool] at hfail
    · have hmiss : ∀ r ∈ db.tasks, r.id = id → r.version ≠ ifVersion :=
        fun r hr hid0 hv0 => hex ⟨r, hr, hid0, hv0⟩
      rw [applyTaskPatch_conflict db id ifVersion patch event hf hmiss]

/-- C1 witness: on the concrete one-row store the patch at the stored
version succeeds, as the success criterion demands. -/
theorem applyTaskPatch_optimistic_witness :
    patchHasFields { status := some "running" } = true ∧
    (wDb.tasks.map TaskRow.id).Nodup ∧
    ((applyTaskPatch wDb "t1" 0 { status := some "running" }
        (some { actor := "orchestrator", kind := "status_change" })).2.isOk = true ↔
      ∃ r ∈ wDb.tasks, r.id = "t1" ∧ r.version = 0) :=
  ⟨by rfl, by simp [wDb, wTask0],
    (applyTaskPatch_optimistic wDb "t1" 0 { status := some "running" }
      (some { actor := "orchestrator", kind := "status_change" }) (by rfl)
      (by simp [wDb, wTask0])).1⟩

/-- C9: the event a successful applyTaskPatch persists copies its
correlation and trace ids from the patched task row (the caller's event
object cannot influence them), and its data collapses to null when the
caller supplied none. -/
theorem taskEvent_provenance (db : Db) (id : String) (ifVersion : Nat) (patch : Patch)
    (ev : EventInput) (db' : Db) (task' : TaskRow) (e : EventRow)
    (h : applyTaskPatch db id ifVersion patch (some ev) = (db', .ok (task', some e))) :
    (task'.correlation_id ≠ some "" → e.correlation_id = task'.correlation_id) ∧
    (task'.trace_id ≠ "" → e.trace_id = some task'.trace_id) ∧
    (ev.data = none → e.data = none) ∧
    e.actor = ev.actor ∧ e.kind = ev.kind ∧ e.task_id = id ∧
    (∀ c t, applyTaskPatch db id ifVersion patch
        (some { ev with correlationId := c, traceId := t }) =
      applyTaskPatch db id ifVersion patch (some ev)) := by
  unfold applyTaskPatch at h
  split at h
  · exact absurd (congrArg Prod.snd h) (by simp)
  · split at h
    · exact absurd (congrArg Prod.snd h) (by simp)
    · rename_i row rest hfilter
      simp only [insertTaskEvent, Prod.mk.injEq, Except.ok.injEq, Option.some.injEq] at h
      obtain ⟨hdb', htask', he⟩ := h
      refine ⟨?_, ?_, ?_, ?_, ?_, ?_, fun c t => rfl⟩
      · intro hcorr
        rw [← he, ← htask']
        show strOrNull (applyRowPatch db.now patch row).correlation_id =
          (applyRowPatch db.now patch row).correlation_id
        cases hc : (applyRowPatch db.now patch row).correlation_id with
        | none => rfl
        | some s =>
          have hs : s ≠ "" := by
            intro hs0
            rw [← htask'] at hcorr
            exact hcorr (by rw [hc, hs0])
          simp [strOrNull, hs]
      · intro htr
        rw [← he, ← htask']
        show strOrNull (some (applyRowPatch db.now patch row).trace_id) =
          some (applyRowPatch db.now patch row).trace_id
        rw [← htask'] at htr
        simp [strOrNull, htr]
      · intro hdata
        rw [← he]
        show (match ev.data with
          | some d => if d.truthy then some d else none
          | none => none) = none
        rw [hdata]
      · rw [← he]
      · rw [← he]
      · rw [← he]

/-- C9 witness: a concrete successful patch whose caller event carries a
foreign trace id; the persisted event still shows the row's own trace
id. -/
theorem taskEvent_provenance_witness :
    wRunningTask.trace_id ≠ "" ∧ wStatusEvent.trace_id = some wRunningTask.trace_id :=
  ⟨by simp [wRunningTask, wTask0],
   (taskEvent_provenance wDb "t1" 0 { status := some "running" } wAlienEvent
      wDbAfter wRunningTask wStatusEvent (by rfl)).2.1
     (by simp [wRunningTask, wTask0])⟩

/-- C2: when another writer has already advanced the task past the
version the engine read at creation, the queued-to-running CAS fails and
processTask makes no state change at all: the store is untouched,
nothing is broadcast, and both patch attempts (the CAS and the follow-up
error patch in the catch block) carried the freshest successfully read
version and lost. -/
theorem processTask_cas_loss (db : Db) (task : TaskRow) (handlerOpt : Option HandlerRecord)
    (invokeResult : Except String JsVal)
    (hmiss : ∀ r ∈ db.tasks, r.id = task.id → r.version ≠ task.version) :
    processTask db task handlerOpt invokeResult =
      { db := db, broadcasts := [],
        attempts := [(task.version, false), (task.version, false)] } := by
  have hconf1 := applyTaskPatch_conflict db task.id task.version
    { status := some "running" }
    (some { actor := "orchestrator", kind := "status_change",
            data := some (.obj [("from", .str "queued"), ("to", .str "running")]) })
    (by rfl) hmiss
  have hconf2 := applyTaskPatch_conflict db task.id task.version
    { status := some "error",
      error := some (.obj [("message", .str "Task version conflict")]) }
    (some { actor := "orchestrator", kind := "error",
            data := some (.obj [("message", .str "Task version conflict")]) })
    (by rfl) hmiss
  simp only [processTask, catchBranch, hconf1, hconf2, List.nil_append,
    List.cons_append]

/-- C2 witness: a store whose row was advanced to version 1 while the
engine holds version 0. -/
theorem processTask_cas_loss_witness :
    processTask wDb2 wTask0 none (.ok .jnull) =
      { db := wDb2, broadcasts := [], attempts := [(0, false), (0, false)] } :=
  processTask_cas_loss wDb2 wTask0 none (.ok .jnull) (by decide)

/-- C4 witness: with only the env call target configured, call.start
resolves to an env-sourced handler. -/
theorem handlerRegistry_priority_witness :
    ∃ h, resolveType (buildRegistry [] callOnlyEnvCfg) "call.start" = some h ∧
      h.source = some "env" :=
  (handlerRegistry_priority [] callOnlyEnvCfg "call.start").2
    { slug := "call-agent", displayName := "Call Agent", channel := "voice",
      mode := some "dispatch", taskTypes := ["call.start"],
      hasDispatch := true, source := some "env" }
    (by decide) (by decide)

/-- C10 witness: a snapshot built before the call target was configured
misses call.start; the resolver rebuilds once and retries against the
fresh snapshot. -/
theorem resolveHandler_rebuild_once_witness :
    resolveHandlerForTaskType (some (buildRegistry [] {})) [] callOnlyEnvCfg "call.start" =
      (resolveType (buildRegistry [] callOnlyEnvCfg) "call.start",
       some (buildRegistry [] callOnlyEnvCfg), 1) :=
  (resolveHandler_rebuild_once (some (buildRegistry [] {})) [] callOnlyEnvCfg
      none "call.start").1
    (buildRegistry [] {}) rfl (by decide) (by rfl)

/-! ## Processing-path lemmas -/

theorem jsOrNull_isUndefined (v : JsVal) : (jsOrNull v).isUndefined = false := by
  unfold jsOrNull
  by_cases h : v.truthy = true
  · rw [if_pos h]
    cases v <;> simp_all [JsVal.truthy, JsVal.isUndefined]
  · rw [if_neg h]
    rfl

theorem jsOrNull_of_truthy (v : JsVal) (h : v.truthy = true) : jsOrNull v = v := by
  simp [jsOrNull, h]

theorem isUndefined_str (s : String) : (JsVal.str s).isUndefined = false := rfl

theorem buildAgentResult_pending_fields (slug channel : String) (nres nack nmeta : JsVal) :
    getField (buildAgentResult slug channel (jsOrNull nres)
      [("status", .str "pending"), ("ack", jsOrNull nack), ("metadata", jsOrNull nmeta)])
        "status" = .str "pending" ∧
    getField (buildAgentResult slug channel (jsOrNull nres)
      [("status", .str "pending"), ("ack", jsOrNull nack), ("metadata", jsOrNull nmeta)])
        "ack" = jsOrNull nack := by
  have hclean : cleanExtras
      [("status", .str "pending"), ("ack", jsOrNull nack), ("metadata", jsOrNull nmeta)] =
      [("status", .str "pending"), ("ack", jsOrNull nack), ("metadata", jsOrNull nmeta)] := by
    unfold cleanExtras
    simp [List.filter, jsOrNull_isUndefined, isUndefined_str]
  unfold buildAgentResult
  rw [hclean]
  rw [if_pos (by simp [jsOrNull_isUndefined])]
  constructor <;>
    simp [objSpread, setField, getField, List.find?, List.foldl]

theorem processTaskAfterRunning_broadcasts (db1 : Db) (task runningTask : TaskRow)
    (handlerOpt : Option HandlerRecord) (inv : Except String JsVal) :
    ∃ rest, (processTaskAfterRunning db1 task runningTask handlerOpt inv).broadcasts =
      runningTask :: rest ∧ rest.length ≤ 1 := by
  simp only [processTaskAfterRunning, catchBranch]
  repeat' split
  all_goals exact ⟨_, rfl, by simp⟩

theorem createTask_parts (db : Db) (newId : String) (args : CreateArgs) :
    (createTask db newId args).2.1.id = newId ∧
    (createTask db newId args).2.1.version = 0 ∧
    (createTask db newId args).2.1.status = "queued" ∧
    (createTask db newId args).2.1.result = none ∧
    (createTask db newId args).1.tasks = db.tasks ++ [(createTask db newId args).2.1] ∧
    (createTask db newId args).1.now = db.now := by
  unfold createTask insertTaskEvent
  cases hs : descField args.agent (fun a => a.slug) <;> simp [hs]

theorem processTask_eq_afterRunning (db0 : Db) (task : TaskRow)
    (handlerOpt : Option HandlerRecord) (inv : Except String JsVal)
    (db1 : Db) (runningTask : TaskRow) (evr : Option EventRow)
    (h : applyTaskPatch db0 task.id task.version { status := some "running" }
      (some { actor := "orchestrator", kind := "status_change",
              data := some (.obj [("from", .str "queued"), ("to", .str "running")]) }) =
      (db1, .ok (runningTask, evr))) :
    processTask db0 task handlerOpt inv =
      processTaskAfterRunning db1 task runningTask handlerOpt inv := by
  simp only [processTask, h]

theorem processTask_broadcasts_of_cas_ok (db0 : Db) (task : TaskRow)
    (handlerOpt : Option HandlerRecord) (inv : Except String JsVal)
    (db1 : Db) (runningTask : TaskRow) (evr : Option EventRow)
    (h : applyTaskPatch db0 task.id task.version { status := some "running" }
      (some { actor := "orchestrator", kind := "status_change",
              data := some (.obj [("from", .str "queued"), ("to", .str "running")]) }) =
      (db1, .ok (runningTask, evr))) :
    ∃ rest, (processTask db0 task handlerOpt inv).broadcasts = runningTask :: rest ∧
      rest.length ≤ 1 := by
  rw [processTask_eq_afterRunning db0 task handlerOpt inv db1 runningTask evr h]
  exact processTaskAfterRunning_broadcasts db1 task runningTask handlerOpt inv

/-- C7: createTask stores the new row at version 0 with status queued;
and in the processing run the engine schedules for it, any broadcast row
that is terminal (done or error) or carries a pending result snapshot is
preceded in the broadcast order by a row in status running (the CAS to
running with its status_change event is the first successful transition
of every run). -/
theorem createTask_processing_lifecycle (db : Db) (newId : String) (args : CreateArgs)
    (handlerOpt : Option HandlerRecord) (invokeResult : Except String JsVal)
    (hnd : (db.tasks.map TaskRow.id).Nodup)
    (hfresh : ∀ r ∈ db.tasks, r.id ≠ newId) :
    (createTask db newId args).2.1.version = 0 ∧
    (createTask db newId args).2.1.status = "queued" ∧
    (∀ (i : Nat) (row : TaskRow),
      (processTask (createTask db newId args).1 (createTask db newId args).2.1
        handlerOpt invokeResult).broadcasts[i]? = some row →
      isTerminalOrPending row = true →
      ∃ (j : Nat) (rowj : TaskRow), j < i ∧
        (processTask (createTask db newId args).1 (createTask db newId args).2.1
          handlerOpt invokeResult).broadcasts[j]? = some rowj ∧
        rowj.status = "running") := by
  obtain ⟨hcid, hcv, hcs, hcres, hctasks, hcnow⟩ := createTask_parts db newId args
  set db' := (createTask db newId args).1 with hdb'
  set t0 := (createTask db newId args).2.1 with ht0
  refine ⟨hcv, hcs, ?_⟩
  have hnd' : (db'.tasks.map TaskRow.id).Nodup := by
    rw [hctasks, List.map_append]
    refine List.Nodup.append hnd (by simp) ?_
    intro a ha hb
    simp only [List.map_cons, List.map_nil, List.mem_singleton] at hb
    obtain ⟨r0, hr0, hr0a⟩ := List.mem_map.mp ha
    exact hfresh r0 hr0 (by rw [hr0a, hb, hcid])
  have hmem : t0 ∈ db'.tasks := by
    rw [hctasks]
    exact List.mem_append_right _ (List.mem_singleton.mpr rfl)
  have h1 := applyTaskPatch_ok db' t0.id t0.version { status := some "running" }
    (some { actor := "orchestrator", kind := "status_change",
            data := some (.obj [("from", .str "queued"), ("to", .str "running")]) })
    rfl hnd' t0 hmem rfl rfl
  dsimp only at h1
  obtain ⟨rest, hbc, hlen⟩ :=
    processTask_broadcasts_of_cas_ok db' t0 handlerOpt invokeResult _ _ _ h1
  intro i row hrow hterm
  rw [hbc] at hrow
  have hRstatus : (applyRowPatch db'.now { status := some "running" } t0).status =
    "running" := rfl
  have hRresult : (applyRowPatch db'.now { status := some "running" } t0).result = none := by
    show (match (none : Option JsVal) with
      | some v => some v
      | none => t0.result) = none
    rw [hcres]
  have hRnot : isTerminalOrPending
      (applyRowPatch db'.now { status := some "running" } t0) = false := by
    simp [isTerminalOrPending, hRstatus, hRresult]
  cases i with
  | zero =>
    simp only [List.getElem?_cons_zero, Option.some.injEq] at hrow
    rw [← hrow, hRnot] at hterm
    cases hterm
  | succ n =>
    refine ⟨0, applyRowPatch db'.now { status := some "running" } t0,
      Nat.succ_pos n, ?_, hRstatus⟩
    rw [hbc]
    simp

/-- C7 witness: a concrete creation in an empty store yields version 0
and status queued. -/
theorem createTask_processing_lifecycle_witness :
    (createTask { tasks := [], events := [], now := 3, nextEventId := 0 } "t1"
      { type := "echo", source := "test", traceId := "tr", actor := "internal" }).2.1.version
      = 0 :=
  (createTask_processing_lifecycle
    { tasks := [], events := [], now := 3, nextEventId := 0 } "t1"
    { type := "echo", source := "test", traceId := "tr", actor := "internal" }
    none (.ok .jnull) (by simp) (by simp)).1

/-- C5: when the handler invocation returns a deferred envelope with a
truthy ack, the engine CAS-patches a pending result snapshot without
changing the status: the stored row stays in status running, its result
carries status pending and the handler's ack verbatim, the persisted
event is a dispatch_ack authored by the handler slug, and processing
stops there; a subsequent external patch carrying the current version
and status done then succeeds and moves the task to done. -/
theorem processTask_deferred (db : Db) (task : TaskRow) (handler : HandlerRecord)
    (resp : JsVal)
    (hnd : (db.tasks.map TaskRow.id).Nodup)
    (r : TaskRow) (hr : r ∈ db.tasks) (hid : r.id = task.id) (hv : r.version = task.version)
    (hcan : (handler.mode = some "inline" ∧ handler.hasExecute = true) ∨
      handler.hasDispatch = true)
    (hdefer : (getField (normalizeAgentResponse resp) "status").eqStr "deferred" = true)
    (hack : (getField (normalizeAgentResponse resp) "ack").truthy = true) :
    ∃ runningTask pendingTask agentResult,
      (processTask db task (some handler) (.ok resp)).broadcasts =
        [runningTask, pendingTask] ∧
      runningTask.status = "running" ∧
      pendingTask.status = "running" ∧
      pendingTask.version = task.version + 2 ∧
      pendingTask.result = some agentResult ∧
      getField agentResult "status" = .str "pending" ∧
      getField agentResult "ack" = getField (normalizeAgentResponse resp) "ack" ∧
      (∀ x ∈ (processTask db task (some handler) (.ok resp)).db.tasks,
        x.id = task.id → x = pendingTask) ∧
      (∃ e1 e2, (processTask db task (some handler) (.ok resp)).db.events =
          db.events ++ [e1, e2] ∧
        e1.kind = "status_change" ∧ e2.kind = "dispatch_ack" ∧ e2.actor = handler.slug) ∧
      (∀ (res2 : JsVal) (actor2 : String), ∃ db2 task2 e3,
        applyTaskPatch (processTask db task (some handler) (.ok resp)).db task.id
          pendingTask.version { status := some "done", result := some res2 }
          (some { actor := actor2, kind := "status_change",
                  data := some (.obj [("status", .str "done")]) }) =
          (db2, .ok (task2, some e3)) ∧
        task2.status = "done" ∧ task2.version = pendingTask.version + 1) := by
  have h1 := applyTaskPatch_ok db task.id task.version { status := some "running" }
    (some { actor := "orchestrator", kind := "status_change",
            data := some (.obj [("from", .str "queued"), ("to", .str "running")]) })
    rfl hnd r hr hid hv
  dsimp only at h1
  have hpack1 : ∃ D1 R E1,
      applyTaskPatch db task.id task.version { status := some "running" }
        (some { actor := "orchestrator", kind := "status_change",
                data := some (.obj [("from", .str "queued"), ("to", .str "running")]) }) =
        (D1, .ok (R, some E1)) ∧
      (D1.tasks.map TaskRow.id).Nodup ∧
      R ∈ D1.tasks ∧ R.id = task.id ∧ R.version = task.version + 1 ∧
      R.status = "running" ∧
      D1.events = db.events ++ [E1] ∧ E1.kind = "status_change" := by
    refine ⟨_, _, _, h1, ?_, ?_, hid, ?_, rfl, rfl, rfl⟩
    · show ((db.tasks.map (fun x =>
        if x.id = task.id && x.version = task.version then
          applyRowPatch db.now { status := some "running" } x
        else x)).map TaskRow.id).Nodup
      rw [updatedTasks_id_map]
      exact hnd
    · exact updatedTasks_mem db task.id task.version _ r hr hid hv
    · show r.version + 1 = task.version + 1
      rw [hv]
  obtain ⟨D1, R, E1, hcas1, hnd1, hmemR, hRid, hRv, hRst, hD1ev, hE1k⟩ := hpack1
  have hstep := processTask_eq_afterRunning db task (some handler) (.ok resp) D1 R
    (some E1) hcas1
  have h2 := applyTaskPatch_ok D1 R.id R.version
    { result := some (buildAgentResult handler.slug handler.channel
        (jsOrNull (getField (normalizeAgentResponse resp) "result"))
        [("status", .str "pending"),
         ("ack", jsOrNull (getField (normalizeAgentResponse resp) "ack")),
         ("metadata", jsOrNull (getField (normalizeAgentResponse resp) "metadata"))]) }
    (some { actor := handler.slug, kind := "dispatch_ack",
            data := some (buildAgentResult handler.slug handler.channel
              (jsOrNull (getField (normalizeAgentResponse resp) "result"))
              [("status", .str "pending"),
               ("ack", jsOrNull (getField (normalizeAgentResponse resp) "ack")),
               ("metadata", jsOrNull (getField (normalizeAgentResponse resp) "metadata"))]) })
    rfl hnd1 R hmemR rfl rfl
  dsimp only at h2
  have hpack2 : ∃ D2 P E2,
      applyTaskPatch D1 R.id R.version
        { result := some (buildAgentResult handler.slug handler.channel
            (jsOrNull (getField (normalizeAgentResponse resp) "result"))
            [("status", .str "pending"),
             ("ack", jsOrNull (getField (normalizeAgentResponse resp) "ack")),
             ("metadata", jsOrNull (getField (normalizeAgentResponse resp) "metadata"))]) }
        (some { actor := handler.slug, kind := "dispatch_ack",
                data := some (buildAgentResult handler.slug handler.channel
                  (jsOrNull (getField (normalizeAgentResponse resp) "result"))
                  [("status", .str "pending"),
                   ("ack", jsOrNull (getField (normalizeAgentResponse resp) "ack")),
                   ("metadata", jsOrNull (getField (normalizeAgentResponse resp) "metadata"))]) }) =
        (D2, .ok (P, some E2)) ∧
      P.status = R.status ∧
      P.version = R.version + 1 ∧
      P.id = R.id ∧
      P.result = some (buildAgentResult handler.slug handler.channel
        (jsOrNull (getField (normalizeAgentResponse resp) "result"))
        [("status", .str "pending"),
         ("ack", jsOrNull (getField (normalizeAgentResponse resp) "ack")),
         ("metadata", jsOrNull (getField (normalizeAgentResponse resp) "metadata"))]) ∧
      (∀ x ∈ D2.tasks, x.id = R.id → x = P) ∧
      (D2.tasks.map TaskRow.id).Nodup ∧
      P ∈ D2.tasks ∧
      D2.events = D1.events ++ [E2] ∧ E2.kind = "dispatch_ack" ∧
      E2.actor = handler.slug := by
    refine ⟨_, _, _, h2, rfl, rfl, rfl, rfl, ?_, ?_, ?_, rfl, rfl, rfl⟩
    · exact updatedTasks_unique D1 R.id R.version _ hnd1 R hmemR rfl rfl
    · show ((D1.tasks.map (fun x =>
        if x.id = R.id && x.version = R.version then
          applyRowPatch D1.now _ x
        else x)).map TaskRow.id).Nodup
      rw [updatedTasks_id_map]
      exact hnd1
    · exact updatedTasks_mem D1 R.id R.version _ R hmemR rfl rfl
  obtain ⟨D2, P, E2, hcas2, hPst, hPv, hPid, hPres, huniq2, hnd2, hmemP, hD2ev,
    hE2k, hE2a⟩ := hpack2
  have hout : processTask db task (some handler) (.ok resp) =
      { db := D2, broadcasts := [R] ++ [P],
        attempts := [(task.version, true)] ++ [(R.version, true)] } := by
    rw [hstep]
    simp only [processTaskAfterRunning]
    rw [if_neg (not_not_intro hcan), if_pos hdefer, if_pos (Or.inr (Or.inl hack)), hcas2]
  obtain ⟨hgfs, hgfa⟩ := buildAgentResult_pending_fields handler.slug handler.channel
    (getField (normalizeAgentResponse resp) "result")
    (getField (normalizeAgentResponse resp) "ack")
    (getField (normalizeAgentResponse resp) "metadata")
  refine ⟨R, P, _, ?_, hRst, by rw [hPst]; exact hRst, by rw [hPv, hRv],
    hPres, hgfs, ?_, ?_, ?_, ?_⟩
  · rw [hout]
    rfl
  · rw [hgfa]
    exact jsOrNull_of_truthy _ hack
  · intro x hx hxid
    rw [hout] at hx
    exact huniq2 x hx (by rw [hxid, hRid])
  · refine ⟨E1, E2, ?_, hE1k, hE2k, hE2a⟩
    rw [hout]
    show D2.events = db.events ++ [E1, E2]
    rw [hD2ev, hD1ev, List.append_assoc]
    rfl
  · intro res2 actor2
    have h3 := applyTaskPatch_ok D2 task.id P.version
      { status := some "done", result := some res2 }
      (some { actor := actor2, kind := "status_change",
              data := some (.obj [("status", .str "done")]) })
      rfl hnd2 P hmemP (by rw [hPid, hRid]) rfl
    dsimp only at h3
    rw [hout]
    refine ⟨_, _, _, h3, rfl, rfl⟩

/-- C5 witness: a concrete deferred envelope with ack ref abc leaves the
concrete task running with a pending result snapshot. -/
theorem processTask_deferred_witness :
    ∃ runningTask pendingTask agentResult,
      (processTask wDb wTask0 (some echoInlineHandler)
          (.ok (.obj [("status", .str "deferred"),
            ("ack", .obj [("ref", .str "abc")])]))).broadcasts =
        [runningTask, pendingTask] ∧
      pendingTask.status = "running" ∧
      pendingTask.result = some agentResult ∧
      getField agentResult "status" = .str "pending" := by
  obtain ⟨rt, pt, ar, hbc, _, hpst, _, hpres, hgfs, _⟩ :=
    processTask_deferred wDb wTask0 echoInlineHandler
      (.obj [("status", .str "deferred"), ("ack", .obj [("ref", .str "abc")])])
      (by simp [wDb, wTask0]) wTask0 (by simp [wDb]) rfl rfl
      (Or.inl ⟨rfl, rfl⟩) (by rfl) (by rfl)
  exact ⟨rt, pt, ar, hbc, hpst, hpres, hgfs⟩
